import Mathlib

set_option maxRecDepth 8000

/-!
Verification of the nginx-viz backend (src/main.go) against its
natural-language specification.  The Go source is shallowly embedded:
pure functions become Lean functions, the concurrent components
(tailer, broadcast hub, websocket session) become explicit traces or
step relations, and calls into libraries (regexp, time, strconv,
maxminddb) are modelled after those libraries' documented semantics.
-/

deriving instance DecidableEq for Except

namespace NginxViz

/-! ## The log-line regular expression

`parseNginxLog` matches the line against the Go regexp
`^(\S+) \S+ \S+ \[([^\]]+)\] "(\S+) ([^"]*) [^"]*" (\d+) (\d+) "([^"]*)" "([^"]*)".*$`
(src/main.go:218).  Go's regexp package uses leftmost-first (Perl-style)
match semantics; for this concatenation-only pattern that is exactly a
backtracking search that tries each greedy repetition longest first.
`\s` in Go regexp is `[\t\n\f\r ]`, `\d` is `[0-9]`, `.` matches any
character except newline, and with no flags `^`/`$` anchor at the start
and end of the whole text. -/

/-- In Go regexp, the Perl class `\s` is `[\t\n\f\r ]`. -/
def goIsSpaceRe (c : Char) : Bool :=
  c = ' ' || c = '\t' || c = '\n' || c = '\x0c' || c = '\r'

/-- The character classes occurring in the log-line pattern. -/
inductive CClass
  | nonSpace
  | notRBracket
  | notQuote
  | digit
  | dot
deriving DecidableEq, Repr

def CClass.matchesC : CClass → Char → Bool
  | .nonSpace, c => !(goIsSpaceRe c)
  | .notRBracket, c => c ≠ ']'
  | .notQuote, c => c ≠ '\"'
  | .digit, c => '0' ≤ c && c ≤ '9'
  | .dot, c => c ≠ '\n'

/-- One element of the (concatenation-only) pattern: a literal
character, or a greedy `*`/`+` repetition of a character class,
optionally recorded as capture group `cap`. -/
inductive RItem
  | lit (c : Char)
  | star (cls : CClass) (cap : Option Nat)
  | plus (cls : CClass) (cap : Option Nat)
deriving DecidableEq, Repr

/-- All ways to split `s` into a prefix drawn from class `cls` and the
remaining suffix, longest prefix first — the order a greedy repetition
explores under backtracking. -/
def splitsGreedy (cls : CClass) : List Char → List (List Char × List Char)
  | [] => [([], [])]
  | c :: cs =>
    if cls.matchesC c then
      ((splitsGreedy cls cs).map fun pr => (c :: pr.1, pr.2)) ++ [([], c :: cs)]
    else
      [([], c :: cs)]

def pushCap : Option Nat → List Char → List (Nat × List Char) → List (Nat × List Char)
  | none, _, caps => caps
  | some i, s, caps => (i, s) :: caps

/-- Backtracking matcher for a concatenation of `RItem`s against the
whole input (the pattern is anchored on both sides).  Greedy
repetitions are tried longest first and the first overall success wins,
which is leftmost-first semantics for this pattern. -/
def matchItems : List RItem → List Char → List (Nat × List Char) → Option (List (Nat × List Char))
  | [], [], caps => some caps
  | [], _ :: _, _ => none
  | .lit _ :: _, [], _ => none
  | .lit c :: rest, x :: xs, caps =>
    if x = c then matchItems rest xs caps else none
  | .star cls cap :: rest, s, caps =>
    (splitsGreedy cls s).findSome? fun pr => matchItems rest pr.2 (pushCap cap pr.1 caps)
  | .plus cls cap :: rest, s, caps =>
    ((splitsGreedy cls s).filter fun pr => !pr.1.isEmpty).findSome? fun pr =>
      matchItems rest pr.2 (pushCap cap pr.1 caps)

/-- The log-line pattern of src/main.go:218, item by item. -/
def nginxItems : List RItem :=
  [ .plus .nonSpace (some 1), .lit ' ',
    .plus .nonSpace none, .lit ' ',
    .plus .nonSpace none, .lit ' ',
    .lit '[', .plus .notRBracket (some 2), .lit ']', .lit ' ',
    .lit '\"', .plus .nonSpace (some 3), .lit ' ',
    .star .notQuote (some 4), .lit ' ', .star .notQuote none, .lit '\"', .lit ' ',
    .plus .digit (some 5), .lit ' ', .plus .digit (some 6), .lit ' ',
    .lit '\"', .star .notQuote (some 7), .lit '\"', .lit ' ',
    .lit '\"', .star .notQuote (some 8), .lit '\"',
    .star .dot none ]

/-- The eight captured groups of a successful match. -/
structure NginxGroups where
  ip : List Char
  time : List Char
  method : List Char
  url : List Char
  status : List Char
  size : List Char
  referer : List Char
  agent : List Char
deriving DecidableEq, Repr

def getCap (i : Nat) (caps : List (Nat × List Char)) : List Char :=
  match caps.lookup i with
  | some s => s
  | none => []

/-- `logRegex.FindStringSubmatch(line)` of src/main.go:219, as the
eight captured groups (`none` when the line does not match, in which
case `len(matches) != 9` in the Go code). -/
def matchNginx (s : List Char) : Option NginxGroups :=
  (matchItems nginxItems s []).map fun caps =>
    { ip := getCap 1 caps, time := getCap 2 caps, method := getCap 3 caps,
      url := getCap 4 caps, status := getCap 5 caps, size := getCap 6 caps,
      referer := getCap 7 caps, agent := getCap 8 caps }

/-! ## Go `time.Parse` with layout `02/Jan/2006:15:04:05 -0700` -/

/-- The result of `time.Parse`: the parsed calendar fields, the
nanoseconds of the (optional) fractional second, and the zone offset
in seconds east of UTC.  Offset `0` prints as `Z` in RFC 3339
output. -/
structure GoTime where
  year : Int
  month : Nat
  day : Nat
  hour : Nat
  minute : Nat
  second : Nat
  nsec : Nat
  offset : Int
deriving DecidableEq, Repr

def isDigitC (c : Char) : Bool := '0' ≤ c && c ≤ '9'

def digitVal (c : Char) : Nat := c.toNat - '0'.toNat

/-- Go `time.getnum` with `fixed = false`: one or two ASCII digits. -/
def getnum2 : List Char → Option (Nat × List Char)
  | c1 :: c2 :: rest =>
    if isDigitC c1 then
      if isDigitC c2 then some (digitVal c1 * 10 + digitVal c2, rest)
      else some (digitVal c1, c2 :: rest)
    else none
  | [c1] => if isDigitC c1 then some (digitVal c1, []) else none
  | [] => none

/-- Go `time.getnum` with `fixed = true`: exactly two ASCII digits. -/
def getnumFixed : List Char → Option (Nat × List Char)
  | c1 :: c2 :: rest =>
    if isDigitC c1 && isDigitC c2 then some (digitVal c1 * 10 + digitVal c2, rest) else none
  | _ => none

/-- Go `time.match`: byte equality up to ASCII case. -/
def charMatchGo (c1 c2 : Char) : Bool :=
  c1 = c2 ||
    (let l1 := c1.toNat ||| 32
     let l2 := c2.toNat ||| 32
     l1 = l2 && 97 ≤ l1 && l1 ≤ 122)

def shortMonthNames : List (List Char) :=
  ["Jan".data, "Feb".data, "Mar".data, "Apr".data, "May".data, "Jun".data,
   "Jul".data, "Aug".data, "Sep".data, "Oct".data, "Nov".data, "Dec".data]

/-- Go `time.lookup` over the short month names: first name that is a
case-insensitive prefix of the input wins; returns the 1-based month
and the rest of the input. -/
def monthLookupAux (names : List (List Char)) (idx : Nat) (s : List Char) :
    Option (Nat × List Char) :=
  match names with
  | [] => none
  | nm :: tl =>
    if nm.length ≤ s.length && ((nm.zip s).all fun pr => charMatchGo pr.2 pr.1) then
      some (idx + 1, s.drop nm.length)
    else monthLookupAux tl (idx + 1) s

def monthLookup (s : List Char) : Option (Nat × List Char) :=
  monthLookupAux shortMonthNames 0 s

/-- Layout element `2006`: four ASCII digits. -/
def parseYear4 : List Char → Option (Nat × List Char)
  | c1 :: c2 :: c3 :: c4 :: rest =>
    if isDigitC c1 && isDigitC c2 && isDigitC c3 && isDigitC c4 then
      some (((digitVal c1 * 10 + digitVal c2) * 10 + digitVal c3) * 10 + digitVal c4, rest)
    else none
  | _ => none

def isLeapYear (y : Nat) : Bool := y % 4 = 0 && (y % 100 ≠ 0 || y % 400 = 0)

/-- Go `time.daysIn`. -/
def daysIn (month : Nat) (year : Nat) : Nat :=
  if month = 2 then (if isLeapYear year then 29 else 28)
  else if month = 4 || month = 6 || month = 9 || month = 11 then 30
  else 31

def expectC (c : Char) : List Char → Option (List Char)
  | x :: xs => if x = c then some xs else none
  | [] => none

/-- Layout element `-0700`: a sign and four digits, giving a zone
offset in seconds. -/
def parseNumTZ : List Char → Option (Int × List Char)
  | sign :: rest =>
    (getnumFixed rest).bind fun hh =>
    (getnumFixed hh.2).bind fun mm =>
    let off : Int := ((hh.1 * 60 + mm.1) * 60 : Nat)
    if sign = '+' then some (off, mm.2)
    else if sign = '-' then some (-off, mm.2)
    else none
  | [] => none

/-- Go time.Parse's special case after the seconds field: when the
input continues with a period or comma and at least one digit even
though the layout has no fractional second, the separator and ALL the
following digits are consumed, and the first nine digits (scaled to
nanoseconds) are retained — `parseNanoseconds` clips to nine digits
and scales by the missing powers of ten.  Anything else leaves the
input untouched (and the layout's next literal then decides). -/
def parseFracSecond : List Char → Nat × List Char
  | sep :: d :: rest =>
    if (sep = '.' || sep = ',') && isDigitC d then
      let ds := d :: rest.takeWhile isDigitC
      let rest2 := rest.dropWhile isDigitC
      let kept := ds.take 9
      let v := kept.foldl (fun acc c => acc * 10 + digitVal c) 0
      (v * 10 ^ (9 - kept.length), rest2)
    else (0, sep :: d :: rest)
  | s => (0, s)

/-- `time.Parse("02/Jan/2006:15:04:05 -0700", s)` (src/main.go:227):
fixed two-digit day, three-letter month, four-digit year, 1–2 digit
hour, fixed two-digit minute and second, an optional fractional second
(accepted when parsing even though the layout has none), numeric zone;
rejects extra trailing text and out-of-range
hour/minute/second/day. -/
def goTimeParse (s : List Char) : Option GoTime :=
  (getnumFixed s).bind fun dm =>
  (expectC '/' dm.2).bind fun s2 =>
  (monthLookup s2).bind fun mo =>
  (expectC '/' mo.2).bind fun s4 =>
  (parseYear4 s4).bind fun yr =>
  (expectC ':' yr.2).bind fun s6 =>
  (getnum2 s6).bind fun hh =>
  (expectC ':' hh.2).bind fun s8 =>
  (getnumFixed s8).bind fun mi =>
  (expectC ':' mi.2).bind fun s10 =>
  (getnumFixed s10).bind fun se =>
  (let fr := parseFracSecond se.2
   (expectC ' ' fr.2).bind fun s12 =>
   (parseNumTZ s12).bind fun tz =>
   if tz.2 = [] then
     if hh.1 < 24 && mi.1 < 60 && se.1 < 60 && 1 ≤ dm.1 && dm.1 ≤ daysIn mo.1 yr.1 then
       some ⟨(yr.1 : Int), mo.1, dm.1, hh.1, mi.1, se.1, fr.1, tz.1⟩
     else none
   else none)

/-- The fractional-second acceptance at work: Go parses
`17/Nov/2025:10:30:45.5 +0000` with the layout
`02/Jan/2006:15:04:05 -0700`, keeping half a second of nanoseconds. -/
theorem goTimeParse_fracSecond_accepts :
    goTimeParse "17/Nov/2025:10:30:45.5 +0000".data
      = some ⟨2025, 11, 17, 10, 30, 45, 500000000, 0⟩ := by
  decide

/-! ## Go `strconv.Atoi` (64-bit int) -/

/-- `strconv.Atoi` on a 64-bit platform: optional sign, one or more
ASCII digits, `none` (an error in Go) when there are no digits, a
stray character, or the value overflows the signed 64-bit range. -/
def goAtoi (s : List Char) : Option Int :=
  let core : Bool × List Char :=
    match s with
    | '+' :: t => (false, t)
    | '-' :: t => (true, t)
    | t => (false, t)
  let ds := core.2
  if ds.isEmpty || !(ds.all isDigitC) then none
  else
    let v : Nat := ds.foldl (fun acc c => acc * 10 + digitVal c) 0
    if core.1 then
      if v ≤ 9223372036854775808 then some (-(v : Int)) else none
    else
      if v ≤ 9223372036854775807 then some (v : Int) else none

/-! ## `parseNginxLog` -/

/-- The `LogEntry` struct of src/main.go:43, with `time.Time` embedded
as `GoTime` and Go `int` as `Int` (its 64-bit range is enforced by
`goAtoi`). -/
structure LogEntry where
  timestamp : GoTime
  ip : String
  method : String
  url : String
  statusCode : Int
  size : Int
  userAgent : String
  referer : String
  country : String
  countryFull : String
deriving DecidableEq, Repr

/-- `parseNginxLog` (src/main.go:214-257).  The fallible calls to
`time.Now()` are made explicit: `now` is the wall-clock value the Go
code would substitute when the timestamp field fails to parse. -/
def parseNginxLog (line : String) (now : GoTime) : Except String LogEntry :=
  match matchNginx line.data with
  | none => .error ("failed to parse log line: " ++ line)
  | some g =>
    .ok { timestamp := (goTimeParse g.time).getD now
          ip := ⟨g.ip⟩
          method := ⟨g.method⟩
          url := ⟨g.url⟩
          statusCode := (goAtoi g.status).getD 0
          size := (goAtoi g.size).getD 0
          userAgent := ⟨g.agent⟩
          referer := ⟨g.referer⟩
          country := ""
          countryFull := "" }

/-! ## Parser claims (C1, C2, C9, C10) -/

/-- Numeric value denoted by a captured digit string. -/
def digitsVal (s : List Char) : Nat := s.foldl (fun acc c => acc * 10 + digitVal c) 0

/-- The §8 example line. -/
def exLine : String :=
  "203.0.113.5 - - [17/Nov/2025:10:30:45 +0000] \"GET /api/test HTTP/1.1\" 200 1234 \"http://example.com\" \"Mozilla/5.0\""

/-- The captured groups of the §8 example line. -/
def exGroups : NginxGroups :=
  ⟨"203.0.113.5".data, "17/Nov/2025:10:30:45 +0000".data, "GET".data, "/api/test".data,
   "200".data, "1234".data, "http://example.com".data, "Mozilla/5.0".data⟩

/-- A grammar-conforming line whose status field overflows a 64-bit int. -/
def ovLine : String :=
  "1.2.3.4 - - [t] \"GET / HTTP/1.1\" 99999999999999999999 5 \"r\" \"ua\""

/-- A line with a missing closing quote on the user-agent field. -/
def mqLine : String := "1.1.1.1 - - [t] \"GET / HTTP/1.1\" 200 5 \"r\" \"ua"

/-- A line whose status field is non-numeric. -/
def nnLine : String := "1.1.1.1 - - [t] \"GET / HTTP/1.1\" abc 5 \"r\" \"ua\""

/-- A grammar-conforming line with an unparseable timestamp and
overflowing status and size fields. -/
def btLine : String :=
  "9.9.9.9 - - [t] \"GET / HTTP/1.1\" 99999999999999999999 99999999999999999999 \"-\" \"-\""

/-- The captured groups of `btLine`. -/
def btGroups : NginxGroups :=
  ⟨"9.9.9.9".data, "t".data, "GET".data, "/".data, "99999999999999999999".data,
   "99999999999999999999".data, "-".data, "-".data⟩

/-- Claim C1, counterexample: a line whose status field is the
20-digit number 99999999999999999999 matches the grammar, but
`strconv.Atoi` overflows, so parseNginxLog substitutes 0 — the
returned status_code does not equal the captured group's value. -/
theorem parse_fields_overflow_cex :
    ((matchNginx ovLine.data).map fun g => digitsVal g.status) = some 99999999999999999999
    ∧ parseNginxLog ovLine ⟨0, 0, 0, 0, 0, 0, 0, 0⟩ =
        .ok ⟨⟨0, 0, 0, 0, 0, 0, 0, 0⟩, "1.2.3.4", "GET", "/", 0, 5, "ua", "r", "", ""⟩
    ∧ (99999999999999999999 : Nat) ≠ 0 :=
  ⟨by decide, by decide, by decide⟩

/-- Claim C1 (amended): for every line matching the combined-log
grammar, parseNginxLog succeeds and its ip, method, url, referer and
user_agent fields equal exactly the corresponding captured groups,
while status_code and size equal the integer value of their captured
groups whenever that value fits a signed 64-bit int and 0 otherwise;
the §8 example line yields exactly the LogEntry stated in the spec
(established by the witness). -/
theorem parseNginxLog_match_fields (line : String) (now : GoTime) (g : NginxGroups)
    (h : matchNginx line.data = some g) :
    parseNginxLog line now =
      .ok { timestamp := (goTimeParse g.time).getD now
            ip := ⟨g.ip⟩
            method := ⟨g.method⟩
            url := ⟨g.url⟩
            statusCode := (goAtoi g.status).getD 0
            size := (goAtoi g.size).getD 0
            userAgent := ⟨g.agent⟩
            referer := ⟨g.referer⟩
            country := ""
            countryFull := "" } := by
  simp [parseNginxLog, h]

/-- Witness for C1: the §8 example line produces exactly the LogEntry
the spec states (timestamp 2025-11-17T10:30:45 at offset 0, i.e. Z). -/
theorem parseNginxLog_match_fields_witness :
    matchNginx exLine.data = some exGroups
    ∧ parseNginxLog exLine ⟨0, 0, 0, 0, 0, 0, 0, 0⟩ =
        .ok ⟨⟨2025, 11, 17, 10, 30, 45, 0, 0⟩, "203.0.113.5", "GET", "/api/test", 200, 1234,
             "Mozilla/5.0", "http://example.com", "", ""⟩ := by
  have h : matchNginx exLine.data = some exGroups := by decide
  refine ⟨h, ?_⟩
  rw [parseNginxLog_match_fields exLine ⟨0, 0, 0, 0, 0, 0, 0, 0⟩ exGroups h]
  decide

/-- Claim C2 (confirmed): for every input line that does not match the
combined-log shape, parseNginxLog returns an error that reports the
offending line, and produces no LogEntry. -/
theorem parseNginxLog_nomatch_error (line : String) (now : GoTime)
    (h : matchNginx line.data = none) :
    parseNginxLog line now = .error ("failed to parse log line: " ++ line) := by
  simp [parseNginxLog, h]

/-- Witness for C2: a line missing the closing quote of its user-agent
field and a line with a non-numeric status field both fail the match
and yield the reporting error. -/
theorem parseNginxLog_nomatch_error_witness :
    (matchNginx mqLine.data = none
      ∧ parseNginxLog mqLine ⟨0, 0, 0, 0, 0, 0, 0, 0⟩ =
          .error ("failed to parse log line: " ++ mqLine))
    ∧ (matchNginx nnLine.data = none
      ∧ parseNginxLog nnLine ⟨0, 0, 0, 0, 0, 0, 0, 0⟩ =
          .error ("failed to parse log line: " ++ nnLine)) := by
  have h1 : matchNginx mqLine.data = none := by decide
  have h2 : matchNginx nnLine.data = none := by decide
  exact ⟨⟨h1, parseNginxLog_nomatch_error _ _ h1⟩, ⟨h2, parseNginxLog_nomatch_error _ _ h2⟩⟩

/-- Claim C9 (confirmed): for every line matching the grammar shape,
the entry as a whole never fails; an unparseable timestamp is replaced
by the current wall-clock time, and a failed status or size conversion
is replaced by 0. -/
theorem parseNginxLog_leniency (line : String) (now : GoTime) (g : NginxGroups)
    (h : matchNginx line.data = some g) :
    ∃ e, parseNginxLog line now = .ok e
      ∧ (goTimeParse g.time = none → e.timestamp = now)
      ∧ (goAtoi g.status = none → e.statusCode = 0)
      ∧ (goAtoi g.size = none → e.size = 0) := by
  simp only [parseNginxLog, h]
  refine ⟨_, rfl, ?_, ?_, ?_⟩ <;> intro hn <;> simp [hn]

/-- Witness for C9: a matching line whose timestamp does not parse and
whose status and size overflow still parses, with the wall-clock time
and zeros substituted. -/
theorem parseNginxLog_leniency_witness :
    (matchNginx btLine.data = some btGroups ∧ goTimeParse btGroups.time = none
      ∧ goAtoi btGroups.status = none ∧ goAtoi btGroups.size = none)
    ∧ ∃ e, parseNginxLog btLine ⟨1, 2, 3, 4, 5, 6, 0, 7⟩ = .ok e
        ∧ (goTimeParse btGroups.time = none → e.timestamp = ⟨1, 2, 3, 4, 5, 6, 0, 7⟩)
        ∧ (goAtoi btGroups.status = none → e.statusCode = 0)
        ∧ (goAtoi btGroups.size = none → e.size = 0) := by
  have h : matchNginx btLine.data = some btGroups := by decide
  exact ⟨⟨h, by decide, by decide, by decide⟩,
    parseNginxLog_leniency btLine ⟨1, 2, 3, 4, 5, 6, 0, 7⟩ btGroups h⟩

/-- Claim C10, counterexample: on a grammar-conforming line whose
timestamp field does not parse, parseNginxLog substitutes the current
wall-clock time, so two evaluations at different instants return
different LogEntries — the function is not pure in that case. -/
theorem parseNginxLog_impure_cex :
    parseNginxLog btLine ⟨1, 2, 3, 4, 5, 6, 0, 7⟩ ≠ parseNginxLog btLine ⟨8, 2, 3, 4, 5, 6, 0, 7⟩ := by
  decide

/-- Whether parseNginxLog evaluates independently of the wall clock on
this line: the line either fails the match or its timestamp field
parses. -/
def timeFieldParses (line : String) : Bool :=
  match matchNginx line.data with
  | none => true
  | some g => (goTimeParse g.time).isSome

/-- Claim C10 (amended): parseNginxLog is a pure function of its input
line except for the timestamp fallback: whenever the line fails the
match, or matches with a parseable timestamp field, any two
evaluations return structurally equal results. -/
theorem parseNginxLog_pure_amended (line : String) (n1 n2 : GoTime)
    (h : timeFieldParses line = true) :
    parseNginxLog line n1 = parseNginxLog line n2 := by
  unfold timeFieldParses at h
  cases hm : matchNginx line.data with
  | none => simp [parseNginxLog, hm]
  | some g =>
    rw [hm] at h
    have h' : (goTimeParse g.time).isSome = true := h
    cases ht : goTimeParse g.time with
    | none => rw [ht] at h'; simp at h'
    | some t => simp [parseNginxLog, hm, ht]

/-- A grammar-conforming line whose timestamp carries a fractional
second, which Go time.Parse accepts although the layout has none. -/
def frLine : String :=
  "8.8.8.8 - - [17/Nov/2025:10:30:45.5 +0000] \"GET / HTTP/1.1\" 200 7 \"-\" \"-\""

/-- Witness for the amended C10: on the §8 example line, and on a line
whose timestamp carries a fractional second (which the program parses
successfully), the result is the same for two different wall-clock
values. -/
theorem parseNginxLog_pure_amended_witness :
    (timeFieldParses exLine = true
      ∧ parseNginxLog exLine ⟨1, 2, 3, 4, 5, 6, 0, 7⟩
          = parseNginxLog exLine ⟨8, 2, 3, 4, 5, 6, 0, 7⟩)
    ∧ (timeFieldParses frLine = true
      ∧ parseNginxLog frLine ⟨1, 2, 3, 4, 5, 6, 0, 7⟩
          = parseNginxLog frLine ⟨8, 2, 3, 4, 5, 6, 0, 7⟩) := by
  have h1 : timeFieldParses exLine = true := by decide
  have h2 : timeFieldParses frLine = true := by decide
  exact ⟨⟨h1, parseNginxLog_pure_amended exLine _ _ h1⟩,
    ⟨h2, parseNginxLog_pure_amended frLine _ _ h2⟩⟩

/-! ## Geo enrichment (C5)

The per-line body of watchLogFile's read loop (src/main.go:314-354):
trim, skip empty lines, parse, skip the service's own asset requests,
parse the IP, decode the geo lookup, enrich, send.  `netip.ParseAddr`
and the loaded database are deterministic functions supplied as
parameters; the decode step follows maxminddb-golang/v2 semantics. -/

/-- The white-space set `strings.TrimSpace` trims: Unicode
White_Space, i.e. what `unicode.IsSpace` holds — ASCII `\t \n \v \f \r`
and space, the Latin-1 cases NEL and NBSP, and the higher white-space
codepoints U+1680, U+2000..U+200A, U+2028, U+2029, U+202F, U+205F and
U+3000. -/
def goIsSpaceTrim (c : Char) : Bool :=
  c = ' ' || c = '\t' || c = '\n' || c = '\x0b' || c = '\x0c' || c = '\r' ||
  c = '\x85' || c = '\xa0' || c.toNat = 0x1680 ||
  (0x2000 ≤ c.toNat && c.toNat ≤ 0x200a) ||
  c.toNat = 0x2028 || c.toNat = 0x2029 || c.toNat = 0x202f ||
  c.toNat = 0x205f || c.toNat = 0x3000

def trimSpaceL (s : List Char) : List Char :=
  ((s.dropWhile goIsSpaceTrim).reverse.dropWhile goIsSpaceTrim).reverse

/-- `strings.TrimSpace` (src/main.go:322). -/
def goTrimSpace (s : String) : String := ⟨trimSpaceL s.data⟩

def startsWithL : List Char → List Char → Bool
  | [], _ => true
  | _ :: _, [] => false
  | p :: ps, x :: xs => p = x && startsWithL ps xs

/-- `strings.Contains(text, pat)` (src/main.go:334). -/
def containsSubL (pat : List Char) : List Char → Bool
  | [] => pat.isEmpty
  | x :: xs => startsWithL pat (x :: xs) || containsSubL pat xs

/-- The decoded `ipRecord` struct (src/main.go:36): ISO code and the
localized country names map. -/
structure IpRecord where
  isoCode : String
  names : List (String × String)
deriving DecidableEq, Repr

/-- Outcome of `db.Lookup(ip)` followed by `.Decode(&record)`: the
database has no record covering the address, has one that decodes into
`found`, or the lookup/decode itself fails. -/
inductive LookupOutcome
  | notFound
  | found (r : IpRecord)
  | decodeError
deriving DecidableEq, Repr

/-- maxminddb-golang/v2 `Result.Decode` semantics: a lookup that found
no covering record returns a nil error and leaves the record at its
zero value; only a genuine lookup or decode failure returns an error. -/
def decodeLookup : LookupOutcome → Except String IpRecord
  | .notFound => .ok ⟨"", []⟩
  | .found r => .ok r
  | .decodeError => .error "decode error"

/-- `record.Country.Names["en"]` with the map's zero value "". -/
def namesEn (r : IpRecord) : String :=
  match r.names.lookup "en" with
  | some s => s
  | none => ""

/-- One iteration of the tailer's read loop on a line it has read
(src/main.go:314-354): `some entry` means the entry is sent on the
broadcast channel, `none` means the line is dropped. -/
def processLine (parseAddr : String → Option Nat) (lookup : Nat → LookupOutcome)
    (rawLine : String) (now : GoTime) : Option LogEntry :=
  let line := goTrimSpace rawLine
  if line = "" then none
  else
    match parseNginxLog line now with
    | .error _ => none
    | .ok e =>
      if containsSubL "nginxviz".data e.url.data then none
      else
        match parseAddr e.ip with
        | none => none
        | some a =>
          match decodeLookup (lookup a) with
          | .error _ => none
          | .ok r => some { e with country := r.isoCode, countryFull := namesEn r }

/-- The LogEntry the §8 example line parses to, before enrichment. -/
def exEntryBlank : LogEntry :=
  ⟨⟨2025, 11, 17, 10, 30, 45, 0, 0⟩, "203.0.113.5", "GET", "/api/test", 200, 1234,
   "Mozilla/5.0", "http://example.com", "", ""⟩

/-- An address parser that resolves the example's IP. -/
def paEx : String → Option Nat := fun s => if s = "203.0.113.5" then some 5 else none

/-- Claim C5, counterexample: when the geolocation database has no
record covering the (validly parsed) address, Decode returns nil and
the zero-valued record, so the entry IS forwarded to the broadcast
channel with empty country fields — an entry without geographic
context is broadcast, contradicting the claim that it is dropped. -/
theorem geo_notfound_forwarded_cex :
    processLine paEx (fun _ => .notFound) exLine ⟨0, 0, 0, 0, 0, 0, 0, 0⟩ = some exEntryBlank
    ∧ exEntryBlank.country = "" ∧ exEntryBlank.countryFull = "" :=
  ⟨by decide, rfl, rfl⟩

/-- Claim C5 (amended): a parsed line whose IP string does not parse
as a network address is dropped before broadcast, and a lookup or
decode error also drops the entry; but an address with no covering
record is forwarded with empty country fields. -/
theorem geo_enrichment_amended (pa : String → Option Nat) (lk : Nat → LookupOutcome)
    (rawLine : String) (now : GoTime) (e : LogEntry)
    (hne : ¬(goTrimSpace rawLine = ""))
    (hp : parseNginxLog (goTrimSpace rawLine) now = .ok e)
    (hurl : containsSubL "nginxviz".data e.url.data = false) :
    (pa e.ip = none → processLine pa lk rawLine now = none)
    ∧ (∀ a, pa e.ip = some a → lk a = .decodeError → processLine pa lk rawLine now = none)
    ∧ (∀ a, pa e.ip = some a → lk a = .notFound →
        processLine pa lk rawLine now = some { e with country := "", countryFull := "" }) := by
  refine ⟨?_, ?_, ?_⟩
  · intro hpa
    simp [processLine, hne, hp, hurl, hpa]
  · intro a hpa hlk
    simp [processLine, hne, hp, hurl, hpa, hlk, decodeLookup]
  · intro a hpa hlk
    simp [processLine, hne, hp, hurl, hpa, hlk, decodeLookup, namesEn]

/-- Witness for the amended C5: on the example line, an address parser
that fails drops the entry before broadcast. -/
theorem geo_enrichment_amended_witness :
    (¬(goTrimSpace exLine = "")
      ∧ parseNginxLog (goTrimSpace exLine) ⟨0, 0, 0, 0, 0, 0, 0, 0⟩ = .ok exEntryBlank
      ∧ containsSubL "nginxviz".data exEntryBlank.url.data = false)
    ∧ processLine (fun _ => none) (fun _ => .notFound) exLine ⟨0, 0, 0, 0, 0, 0, 0, 0⟩ = none := by
  have h1 : ¬(goTrimSpace exLine = "") := by decide
  have h2 : parseNginxLog (goTrimSpace exLine) ⟨0, 0, 0, 0, 0, 0, 0, 0⟩ = .ok exEntryBlank := by
    decide
  have h3 : containsSubL "nginxviz".data exEntryBlank.url.data = false := by decide
  exact ⟨⟨h1, h2, h3⟩,
    (geo_enrichment_amended (fun _ => none) (fun _ => .notFound) exLine
      ⟨0, 0, 0, 0, 0, 0, 0, 0⟩ exEntryBlank h1 h2 h3).1 rfl⟩

/-! ## Broadcast fan-out (C3)

broadcastLogEntry (src/main.go:385-413) wraps the entry in a LogUpdate
envelope, marshals it once, snapshots the registered clients, and
writes the single message to each handle of the snapshot; a failed
write closes that handle and submits an Unregister, and the loop goes
on to the remaining handles. -/

/-- The LogUpdate envelope (src/main.go:56). -/
structure LogUpdate where
  type : String
  data : LogEntry
deriving DecidableEq, Repr

def hexDigitC (n : Nat) : Char := if n < 10 then Char.ofNat (48 + n) else Char.ofNat (87 + n)

/-- Go encoding/json string escaping (HTML escaping on, as
json.Marshal defaults). -/
def jsonEscapeChar (c : Char) : List Char :=
  if c = '\"' then ['\\', '\"']
  else if c = '\\' then ['\\', '\\']
  else if c = '\n' then ['\\', 'n']
  else if c = '\r' then ['\\', 'r']
  else if c = '\t' then ['\\', 't']
  else if c.toNat < 32 then ['\\', 'u', '0', '0', hexDigitC (c.toNat / 16), hexDigitC (c.toNat % 16)]
  else if c = '<' then ['\\', 'u', '0', '0', '3', 'c']
  else if c = '>' then ['\\', 'u', '0', '0', '3', 'e']
  else if c = '&' then ['\\', 'u', '0', '0', '2', '6']
  else if c.toNat = 8232 then "\\u2028".data
  else if c.toNat = 8233 then "\\u2029".data
  else [c]

def jsonStr (s : String) : String := ⟨'\"' :: (s.data.map jsonEscapeChar).flatten ++ ['\"']⟩

def pad2 (n : Nat) : String := if n < 10 then "0" ++ toString n else toString n

def pad4 (n : Nat) : String :=
  if n < 10 then "000" ++ toString n
  else if n < 100 then "00" ++ toString n
  else if n < 1000 then "0" ++ toString n
  else toString n

/-- The RFC3339Nano fractional part: omitted when the nanoseconds are
zero, otherwise a point and the nine-digit nanosecond field with its
trailing zeros removed. -/
def fracPart (ns : Nat) : String :=
  if ns = 0 then ""
  else
    let p := toString ns
    let p9 := String.mk (List.replicate (9 - p.length) '0') ++ p
    "." ++ String.mk ((p9.data.reverse.dropWhile fun c => c = '0').reverse)

/-- RFC 3339 rendering of a parsed time (what json.Marshal emits for
`time.Time`, RFC3339Nano): sub-second part only when non-zero, and
offset 0 renders as Z. -/
def rfc3339 (t : GoTime) : String :=
  let datePart := pad4 t.year.toNat ++ "-" ++ pad2 t.month ++ "-" ++ pad2 t.day ++ "T"
      ++ pad2 t.hour ++ ":" ++ pad2 t.minute ++ ":" ++ pad2 t.second ++ fracPart t.nsec
  if t.offset = 0 then datePart ++ "Z"
  else
    let off := t.offset.natAbs
    let sign := if t.offset < 0 then "-" else "+"
    datePart ++ sign ++ pad2 (off / 3600) ++ ":" ++ pad2 ((off % 3600) / 60)

/-- `json.Marshal` of the LogUpdate envelope: field order and names
follow the struct tags of src/main.go:43-59; marshalling `time.Time`
fails outside years 0..9999, the envelope's only failure mode. -/
def marshalLogUpdate (u : LogUpdate) : Option String :=
  if u.data.timestamp.year < 0 || 9999 < u.data.timestamp.year then none
  else some ("\x7b\"type\":" ++ jsonStr u.type ++ ",\"data\":\x7b\"timestamp\":\""
    ++ rfc3339 u.data.timestamp ++ "\",\"ip\":" ++ jsonStr u.data.ip
    ++ ",\"method\":" ++ jsonStr u.data.method ++ ",\"url\":" ++ jsonStr u.data.url
    ++ ",\"status_code\":" ++ toString u.data.statusCode ++ ",\"size\":" ++ toString u.data.size
    ++ ",\"user_agent\":" ++ jsonStr u.data.userAgent ++ ",\"referer\":" ++ jsonStr u.data.referer
    ++ ",\"country\":" ++ jsonStr u.data.country
    ++ ",\"country_full\":" ++ jsonStr u.data.countryFull ++ "\x7d\x7d")

/-- The clientAction messages (src/main.go:61), connections abstracted
to numeric handles. -/
inductive CAction
  | register (c : Nat)
  | unregister (c : Nat)
deriving DecidableEq, Repr

/-- Observable events of one broadcastLogEntry call. -/
inductive BEvent
  | wroteMsg (c : Nat) (msg : String) (ok : Bool)
  | closedConn (c : Nat)
  | submitted (a : CAction)
deriving DecidableEq, Repr

/-- broadcastLogEntry (src/main.go:385-413) as its event trace, given
the point-in-time snapshot of registered handles and each handle's
write outcome. -/
def broadcastLogEntry (e : LogEntry) (snapshot : List Nat) (writeOk : Nat → Bool) :
    List BEvent :=
  match marshalLogUpdate ⟨"log_entry", e⟩ with
  | none => []
  | some msg =>
    snapshot.flatMap fun c =>
      if writeOk c then [.wroteMsg c msg true]
      else [.wroteMsg c msg false, .closedConn c, .submitted (.unregister c)]

/-- The handles written to, in attempt order. -/
def writeTargets (tr : List BEvent) : List Nat :=
  tr.filterMap fun ev =>
    match ev with
    | .wroteMsg c _ _ => some c
    | _ => none

theorem writeTargets_bind (msg : String) (writeOk : Nat → Bool) (l : List Nat) :
    writeTargets (l.flatMap fun c =>
      if writeOk c then [BEvent.wroteMsg c msg true]
      else [.wroteMsg c msg false, .closedConn c, .submitted (.unregister c)]) = l := by
  induction l with
  | nil => rfl
  | cons hd tl ih =>
    by_cases hw : writeOk hd <;>
      simp only [List.flatMap_cons, writeTargets, List.filterMap_append, hw, if_pos, if_neg,
        Bool.false_eq_true, List.filterMap_cons, List.filterMap_nil] <;>
      simpa [writeTargets] using ih

/-- Claim C3 (confirmed): broadcasting one LogEntry (with a
marshallable timestamp, as all entries of this pipeline have) makes
exactly one write attempt to each handle of the snapshot, in order,
all carrying the one serialized message; a failed write to a handle
closes it and submits an Unregister for it, and the attempts to the
remaining handles still occur (the write-target list is the whole
snapshot regardless of failures). -/
theorem broadcast_fanout (e : LogEntry) (snapshot : List Nat) (writeOk : Nat → Bool)
    (msg : String) (h : marshalLogUpdate ⟨"log_entry", e⟩ = some msg) :
    writeTargets (broadcastLogEntry e snapshot writeOk) = snapshot
    ∧ (∀ c m ok, BEvent.wroteMsg c m ok ∈ broadcastLogEntry e snapshot writeOk → m = msg)
    ∧ (∀ c ∈ snapshot, writeOk c = false →
        BEvent.closedConn c ∈ broadcastLogEntry e snapshot writeOk
        ∧ BEvent.submitted (.unregister c) ∈ broadcastLogEntry e snapshot writeOk) := by
  unfold broadcastLogEntry
  rw [h]
  refine ⟨writeTargets_bind msg writeOk snapshot, ?_, ?_⟩
  · intro c m ok hmem
    rcases List.mem_flatMap.mp hmem with ⟨x, _, hx⟩
    by_cases hw : writeOk x <;> simp [hw] at hx <;> tauto
  · intro c hc hw
    constructor <;> refine List.mem_flatMap.mpr ⟨c, hc, ?_⟩ <;> simp [hw]

/-- The marshalled §8 example entry. -/
def bMsg : String := (marshalLogUpdate ⟨"log_entry", exEntryBlank⟩).getD ""

/-- Witness for C3: broadcasting the §8 example entry to the snapshot
[1, 2, 3] where the write to handle 2 fails attempts all three writes
and closes and unregisters handle 2. -/
theorem broadcast_fanout_witness :
    marshalLogUpdate ⟨"log_entry", exEntryBlank⟩ = some bMsg
    ∧ writeTargets (broadcastLogEntry exEntryBlank [1, 2, 3] fun c => !(c == 2)) = [1, 2, 3]
    ∧ (BEvent.closedConn 2 ∈ broadcastLogEntry exEntryBlank [1, 2, 3] (fun c => !(c == 2))
       ∧ BEvent.submitted (.unregister 2) ∈
           broadcastLogEntry exEntryBlank [1, 2, 3] (fun c => !(c == 2))) := by
  have h : marshalLogUpdate ⟨"log_entry", exEntryBlank⟩ = some bMsg := by rfl
  have hb := broadcast_fanout exEntryBlank [1, 2, 3] (fun c => !(c == 2)) bMsg h
  exact ⟨h, hb.1, hb.2.2 2 (by decide) (by decide)⟩

/-! ## Connection session (C7)

MakeWebSocketHandler (src/main.go:429-484): after the upgrade the
handler registers the connection, spawns a read goroutine that closes
`done` on any read error (peer close or the 60s liveness deadline
included), and loops on a select between the 30s ping ticker and
`done`.  A failed ping write returns at once — running the deferred
conn.Close() but submitting no Unregister; the `done` case submits an
Unregister before returning. -/

/-- Events a session emits. -/
inductive SessEvent
  | regSubmitted
  | pinged (ok : Bool)
  | unregSubmitted
  | transportClosed
deriving DecidableEq, Repr

/-- What the environment feeds the select loop: a ticker tick with the
ping write's outcome, or the read goroutine terminating. -/
inductive LoopEvent
  | tick (pingOk : Bool)
  | readerDone
deriving DecidableEq, Repr

/-- The handler's select loop (src/main.go:469-482). -/
def sessionLoop : List LoopEvent → List SessEvent
  | [] => []
  | .tick ok :: rest =>
    if ok then .pinged true :: sessionLoop rest
    else [.pinged false, .transportClosed]
  | .readerDone :: _ => [.unregSubmitted, .transportClosed]

/-- A whole session after a successful upgrade: Register first, then
the keepalive loop (src/main.go:439-482). -/
def sessionTrace (script : List LoopEvent) : List SessEvent :=
  .regSubmitted :: sessionLoop script

/-- Claim C7, counterexample: a session that leaves its active state
through a failed liveness probe (ping write error) releases the
transport but never submits an Unregister for its handle. -/
theorem session_ping_failure_cex :
    sessionTrace [.tick false] = [.regSubmitted, .pinged false, .transportClosed]
    ∧ SessEvent.unregSubmitted ∉ sessionTrace [.tick false] := by
  constructor <;> decide

theorem sessionLoop_exits (n : Nat) (post : List LoopEvent) :
    sessionLoop (List.replicate n (.tick true) ++ .readerDone :: post)
      = List.replicate n (.pinged true) ++ [.unregSubmitted, .transportClosed]
    ∧ sessionLoop (List.replicate n (.tick true) ++ .tick false :: post)
      = List.replicate n (.pinged true) ++ [.pinged false, .transportClosed] := by
  induction n with
  | zero => simp [sessionLoop]
  | succ k ih => simpa [List.replicate_succ, sessionLoop] using ih

/-- Claim C7 (amended): a session that leaves its active state because
the read goroutine finished — read error, peer close, or liveness
deadline expiry — submits an Unregister for its handle and then
releases the transport before terminating; but a session that leaves
through a ping write failure releases the transport without ever
submitting an Unregister. -/
theorem session_exit_amended (n : Nat) (post : List LoopEvent) :
    sessionTrace (List.replicate n (.tick true) ++ .readerDone :: post)
      = .regSubmitted :: List.replicate n (.pinged true) ++ [.unregSubmitted, .transportClosed]
    ∧ sessionTrace (List.replicate n (.tick true) ++ .tick false :: post)
      = .regSubmitted :: List.replicate n (.pinged true) ++ [.pinged false, .transportClosed]
    ∧ SessEvent.unregSubmitted ∉
        sessionTrace (List.replicate n (.tick true) ++ .tick false :: post) := by
  have h := sessionLoop_exits n post
  refine ⟨by simp [sessionTrace, h.1], by simp [sessionTrace, h.2], ?_⟩
  simp only [sessionTrace, h.2]
  intro hmem
  rcases List.mem_cons.mp hmem with h1 | h1
  · exact SessEvent.noConfusion h1
  · rcases List.mem_append.mp h1 with h2 | h2
    · exact absurd (List.eq_of_mem_replicate h2) (by decide)
    · rcases List.mem_cons.mp h2 with h3 | h3
      · exact SessEvent.noConfusion h3
      · rcases List.mem_cons.mp h3 with h4 | h4
        · exact SessEvent.noConfusion h4
        · exact absurd h4 (List.not_mem_nil _)

/-- Witness for the amended C7, after one successful ping: the
reader-done exit unregisters before closing, the ping-failure exit
closes without unregistering. -/
theorem session_exit_amended_witness :
    sessionTrace (List.replicate 1 (.tick true) ++ .readerDone :: [])
      = .regSubmitted :: List.replicate 1 (.pinged true)
          ++ [.unregSubmitted, .transportClosed]
    ∧ sessionTrace (List.replicate 1 (.tick true) ++ .tick false :: [])
      = .regSubmitted :: List.replicate 1 (.pinged true)
          ++ [.pinged false, .transportClosed]
    ∧ SessEvent.unregSubmitted ∉
        sessionTrace (List.replicate 1 (.tick true) ++ .tick false :: []) :=
  session_exit_amended 1 []

/-! ## Tailer liveness (C8)

The lifecycle of watchLogFile (src/main.go:273-357): the wait loop
retries on a missing file; an error from os.Open or from reading the
inode logs and returns — the tailer exits with no replacement; in the
read loop, end-of-stream (or any read error) sleeps and retries, and
the rotation signal replaces the session via `go watchLogFile` before
returning. -/

inductive TailPhase
  | waitingForFile
  | opening
  | gettingInode
  | tailing
  | restarting
  | exited
deriving DecidableEq, Repr

/-- One observation the environment can present to the phase the
tailer is in. -/
inductive TailObs
  | statNotExist
  | statOk
  | statOtherErr
  | openOk
  | openErr
  | inodeOk
  | inodeErr
  | readLineOk
  | readErr
  | rotatedSig
deriving DecidableEq, Repr

/-- The tailer's phase transitions (src/main.go:273-357).  `restarting`
is the moment after `go watchLogFile(...)`: the replacement session
takes over at the wait loop. -/
def tailStep : TailPhase → TailObs → TailPhase
  | .waitingForFile, .statNotExist => .waitingForFile
  | .waitingForFile, .statOk => .opening
  | .waitingForFile, .statOtherErr => .opening
  | .opening, .openOk => .gettingInode
  | .opening, .openErr => .exited
  | .gettingInode, .inodeOk => .tailing
  | .gettingInode, .inodeErr => .exited
  | .tailing, .rotatedSig => .restarting
  | .tailing, .readErr => .tailing
  | .tailing, .readLineOk => .tailing
  | .restarting, _ => .waitingForFile
  | .exited, _ => .exited
  | p, _ => p

/-- Claim C8, counterexample: an error from opening the log file moves
the tailer to `exited`, an absorbing state with no replacement session
— the tailer can exit by itself. -/
theorem tailer_exit_cex :
    tailStep .opening .openErr = .exited
    ∧ ∀ o, tailStep .exited o = .exited := by
  refine ⟨rfl, ?_⟩
  intro o
  cases o <;> rfl

/-- Claim C8 (amended): absence of the file causes a bounded-interval
wait and retry (not an error); end-of-stream or a read error causes a
sleep and retry; no condition encountered in the read loop itself stops
the tailer without a replacement (rotation hands over to a replacement
session); but a failure to open the file or read its inode at session
start terminates the tailer with no replacement — the only two such
exits. -/
theorem tailer_liveness_amended (p : TailPhase) (o : TailObs) :
    tailStep .waitingForFile .statNotExist = .waitingForFile
    ∧ tailStep .tailing .readErr = .tailing
    ∧ tailStep .tailing o ≠ .exited
    ∧ tailStep .tailing .rotatedSig = .restarting
    ∧ (tailStep p o = .exited →
        p = .exited ∨ (p = .opening ∧ o = .openErr) ∨ (p = .gettingInode ∧ o = .inodeErr)) := by
  refine ⟨rfl, rfl, ?_, rfl, ?_⟩
  · cases o <;> simp [tailStep]
  · cases p <;> cases o <;> simp [tailStep]

/-- Witness for the amended C8: instantiated at the open-error input. -/
theorem tailer_liveness_amended_witness :
    tailStep .waitingForFile .statNotExist = .waitingForFile
    ∧ tailStep .tailing .readErr = .tailing
    ∧ tailStep .tailing .openErr ≠ .exited
    ∧ tailStep .tailing .rotatedSig = .restarting
    ∧ (tailStep .opening .openErr = .exited →
        TailPhase.opening = .exited ∨ (TailPhase.opening = .opening ∧ TailObs.openErr = .openErr)
        ∨ (TailPhase.opening = .gettingInode ∧ TailObs.openErr = .inodeErr)) :=
  tailer_liveness_amended .opening .openErr

/-! ## The client registry under concurrent broadcasts (C6)

manageClients (src/main.go:415-426) is the sole mutator of the
`clients` map, processing clientActions in submission order.
broadcastLogEntry (src/main.go:399-412) runs concurrently: it first
snapshots the map and then writes to the snapshot's handles one by
one.  The hub is modelled as an interleaved transition system: actions
are submitted to the queue and processed in order; a broadcast takes a
snapshot of the current registry and performs its writes one at a
time, possibly interleaved with further registry changes. -/

/-- Observable hub events: a processed registry command, a broadcast
(identified by a serial number) taking its snapshot, and a broadcast
writing to one handle. -/
inductive HEvent
  | processed (a : CAction)
  | snapTaken (b : Nat) (snap : List Nat)
  | wroteTo (b : Nat) (c : Nat)
deriving DecidableEq, Repr

structure HubState where
  clients : List Nat
  queue : List CAction
  inflight : List (Nat × List Nat × List Nat)
  nextB : Nat
  trace : List HEvent
deriving DecidableEq, Repr

/-- The effect of one processed clientAction on the registry
(src/main.go:417-424): register adds the handle to the map, unregister
deletes it. -/
def applyAction (cs : List Nat) : CAction → List Nat
  | .register c => if c ∈ cs then cs else cs ++ [c]
  | .unregister c => cs.filter fun x => x ≠ c

def hubReplayStep (cs : List Nat) (e : HEvent) : List Nat :=
  match e with
  | .processed a => applyAction cs a
  | _ => cs

/-- The registry contents determined by the processed commands of a
trace. -/
def replayClients (t : List HEvent) : List Nat := t.foldl hubReplayStep []

/-- The hub's interleaved small steps.  An inflight broadcast is
`(id, snapshot, handles not yet written to)`. -/
inductive HubStep : HubState → HubState → Prop
  | submit (s : HubState) (a : CAction) :
      HubStep s ⟨s.clients, s.queue ++ [a], s.inflight, s.nextB, s.trace⟩
  | process (s : HubState) (a : CAction) (q : List CAction) (hq : s.queue = a :: q) :
      HubStep s ⟨applyAction s.clients a, q, s.inflight, s.nextB, s.trace ++ [.processed a]⟩
  | startB (s : HubState) :
      HubStep s ⟨s.clients, s.queue, s.inflight ++ [(s.nextB, s.clients, s.clients)],
        s.nextB + 1, s.trace ++ [.snapTaken s.nextB s.clients]⟩
  | writeB (s : HubState) (l1 l2 : List (Nat × List Nat × List Nat))
      (b : Nat) (snap rem : List Nat) (c : Nat)
      (hq : s.inflight = l1 ++ (b, snap, c :: rem) :: l2) :
      HubStep s ⟨s.clients, s.queue, l1 ++ (b, snap, rem) :: l2, s.nextB,
        s.trace ++ [.wroteTo b c]⟩

def hub0 : HubState := ⟨[], [], [], 0, []⟩

def HubReach (s : HubState) : Prop := Relation.ReflTransGen HubStep hub0 s

theorem getElem?_append_singleton {α : Type} (t : List α) (e : α) (i : Nat) (x : α)
    (h : (t ++ [e])[i]? = some x) :
    (i < t.length ∧ t[i]? = some x) ∨ (i = t.length ∧ x = e) := by
  by_cases hlt : i < t.length
  · rw [List.getElem?_append_left hlt] at h
    exact Or.inl ⟨hlt, h⟩
  · push_neg at hlt
    rw [List.getElem?_append_right hlt] at h
    cases hk : i - t.length with
    | zero =>
      rw [hk] at h
      simp only [List.getElem?_cons_zero, Option.some.injEq] at h
      exact Or.inr ⟨Nat.le_antisymm (Nat.le_of_sub_eq_zero hk) hlt, h.symm⟩
    | succ k =>
      rw [hk] at h
      simp at h

/-- The hub invariant: the registry equals the replay of the processed
commands; every recorded snapshot equals the registry at the moment it
was taken; every inflight broadcast's remainder is a suffix of its
recorded snapshot; every write hit a member of its broadcast's
snapshot. -/
def HubInv (s : HubState) : Prop :=
  s.clients = replayClients s.trace
  ∧ (∀ i b snap, s.trace[i]? = some (HEvent.snapTaken b snap) →
      snap = replayClients (s.trace.take i))
  ∧ (∀ x ∈ s.inflight, HEvent.snapTaken x.1 x.2.1 ∈ s.trace ∧ x.2.2 <:+ x.2.1)
  ∧ (∀ b c, HEvent.wroteTo b c ∈ s.trace →
      ∃ snap, HEvent.snapTaken b snap ∈ s.trace ∧ c ∈ snap)

theorem replayClients_append (t u : List HEvent) :
    replayClients (t ++ u) = u.foldl hubReplayStep (replayClients t) := by
  simp [replayClients, List.foldl_append]

theorem hubInv_init : HubInv hub0 := by
  refine ⟨rfl, ?_, ?_, ?_⟩
  · intro i b snap hsnap
    simp [hub0] at hsnap
  · intro x hx
    simp [hub0] at hx
  · intro b c hmem
    simp [hub0] at hmem

theorem hubInv_step (s s' : HubState) (hs : HubStep s s') (hi : HubInv s) : HubInv s' := by
  obtain ⟨h1, h2, h3, h4⟩ := hi
  cases hs with
  | submit a => exact ⟨h1, h2, h3, h4⟩
  | process a q hq =>
    refine ⟨?_, ?_, ?_, ?_⟩
    · show applyAction s.clients a = replayClients (s.trace ++ [HEvent.processed a])
      rw [replayClients_append, h1]
      rfl
    · intro i b snap hsnap
      rcases getElem?_append_singleton _ _ _ _ hsnap with ⟨hlt, hold⟩ | ⟨heq, hx⟩
      · show snap = replayClients ((s.trace ++ [HEvent.processed a]).take i)
        rw [List.take_append_of_le_length (Nat.le_of_lt hlt)]
        exact h2 i b snap hold
      · exact absurd hx (by simp)
    · intro x hx
      obtain ⟨hm, hsuf⟩ := h3 x hx
      exact ⟨List.mem_append_left _ hm, hsuf⟩
    · intro b c hmem
      rcases List.mem_append.mp hmem with hm | hm
      · obtain ⟨snap, hms, hcs⟩ := h4 b c hm
        exact ⟨snap, List.mem_append_left _ hms, hcs⟩
      · simp at hm
  | startB =>
    refine ⟨?_, ?_, ?_, ?_⟩
    · show s.clients = replayClients (s.trace ++ [HEvent.snapTaken s.nextB s.clients])
      rw [replayClients_append]
      exact h1
    · intro i b snap hsnap
      rcases getElem?_append_singleton _ _ _ _ hsnap with ⟨hlt, hold⟩ | ⟨heq, hx⟩
      · show snap = replayClients
            ((s.trace ++ [HEvent.snapTaken s.nextB s.clients]).take i)
        rw [List.take_append_of_le_length (Nat.le_of_lt hlt)]
        exact h2 i b snap hold
      · injection hx with hb hsnap'
        show snap = replayClients
            ((s.trace ++ [HEvent.snapTaken s.nextB s.clients]).take i)
        rw [heq, List.take_left, hsnap']
        exact h1
    · intro x hx
      rcases List.mem_append.mp hx with hm | hm
      · obtain ⟨hms, hsuf⟩ := h3 x hm
        exact ⟨List.mem_append_left _ hms, hsuf⟩
      · rw [List.mem_singleton] at hm
        subst hm
        exact ⟨List.mem_append_right _ (List.mem_singleton_self _), List.suffix_refl _⟩
    · intro b c hmem
      rcases List.mem_append.mp hmem with hm | hm
      · obtain ⟨snap, hms, hcs⟩ := h4 b c hm
        exact ⟨snap, List.mem_append_left _ hms, hcs⟩
      · simp at hm
  | writeB l1 l2 b snap rem c hq =>
    have hmem0 : (b, snap, c :: rem) ∈ s.inflight := by
      rw [hq]
      exact List.mem_append_right _ (List.mem_cons_self _ _)
    obtain ⟨hsnapmem, hsuf⟩ := h3 _ hmem0
    refine ⟨?_, ?_, ?_, ?_⟩
    · show s.clients = replayClients (s.trace ++ [HEvent.wroteTo b c])
      rw [replayClients_append]
      exact h1
    · intro i b' snap' hsnap
      rcases getElem?_append_singleton _ _ _ _ hsnap with ⟨hlt, hold⟩ | ⟨heq, hx⟩
      · show snap' = replayClients ((s.trace ++ [HEvent.wroteTo b c]).take i)
        rw [List.take_append_of_le_length (Nat.le_of_lt hlt)]
        exact h2 i b' snap' hold
      · exact absurd hx (by simp)
    · intro x hx
      rcases List.mem_append.mp hx with hm | hm
      · have hxold : x ∈ s.inflight := by
          rw [hq]
          exact List.mem_append_left _ hm
        obtain ⟨hms, hsf⟩ := h3 x hxold
        exact ⟨List.mem_append_left _ hms, hsf⟩
      · rcases List.mem_cons.mp hm with hm1 | hm1
        · subst hm1
          exact ⟨List.mem_append_left _ hsnapmem, (List.suffix_cons c rem).trans hsuf⟩
        · have hxold : x ∈ s.inflight := by
            rw [hq]
            exact List.mem_append_right _ (List.mem_cons_of_mem _ hm1)
          obtain ⟨hms, hsf⟩ := h3 x hxold
          exact ⟨List.mem_append_left _ hms, hsf⟩
    · intro b' c' hmem
      rcases List.mem_append.mp hmem with hm | hm
      · obtain ⟨snap', hms, hcs⟩ := h4 b' c' hm
        exact ⟨snap', List.mem_append_left _ hms, hcs⟩
      · rw [List.mem_singleton] at hm
        injection hm with hb' hc'
        subst hb'
        subst hc'
        exact ⟨snap, List.mem_append_left _ hsnapmem,
          hsuf.subset (List.mem_cons_self _ _)⟩

theorem hubInv_reach (s : HubState) (h : HubReach s) : HubInv s := by
  induction h with
  | refl => exact hubInv_init
  | tail hr hstep ih => exact hubInv_step _ _ hstep ih

theorem notMem_applyAction (c : Nat) (cs : List Nat) (a : CAction)
    (hc : c ∉ cs) (ha : a ≠ CAction.register c) : c ∉ applyAction cs a := by
  cases a with
  | register d =>
    by_cases hd : d ∈ cs
    · simpa [applyAction, hd] using hc
    · have hrw : applyAction cs (CAction.register d) = cs ++ [d] := by
        simp [applyAction, hd]
      rw [hrw]
      intro hmem
      rcases List.mem_append.mp hmem with h | h
      · exact hc h
      · rw [List.mem_singleton] at h
        exact ha (by rw [h])
  | unregister d =>
    simp only [applyAction, List.mem_filter]
    rintro ⟨h, -⟩
    exact hc h

theorem notMem_replay_aux (c : Nat) (evs : List HEvent) (cs : List Nat)
    (hc : c ∉ cs) (hno : ∀ e ∈ evs, e ≠ HEvent.processed (.register c)) :
    c ∉ evs.foldl hubReplayStep cs := by
  induction evs generalizing cs with
  | nil => exact hc
  | cons e tl ih =>
    simp only [List.foldl_cons]
    refine ih (hubReplayStep cs e) ?_ fun x hx => hno x (List.mem_cons_of_mem e hx)
    cases e with
    | processed a =>
      refine notMem_applyAction c cs a hc ?_
      intro haeq
      exact hno _ (List.mem_cons_self _ _) (by rw [haeq])
    | snapTaken b snap => exact hc
    | wroteTo b d => exact hc

/-- States of the counterexample run: register handle 7, process it,
start a broadcast (whose snapshot is [7]), submit and process the
Unregister for 7, then the in-flight broadcast performs its write. -/
def hubS1 : HubState := ⟨[], [CAction.register 7], [], 0, []⟩

def hubS2 : HubState := ⟨[7], [], [], 0, [HEvent.processed (.register 7)]⟩

def hubS3 : HubState :=
  ⟨[7], [], [(0, [7], [7])], 1, [HEvent.processed (.register 7), HEvent.snapTaken 0 [7]]⟩

def hubS4 : HubState :=
  ⟨[7], [CAction.unregister 7], [(0, [7], [7])], 1,
   [HEvent.processed (.register 7), HEvent.snapTaken 0 [7]]⟩

def hubS5 : HubState :=
  ⟨[], [], [(0, [7], [7])], 1,
   [HEvent.processed (.register 7), HEvent.snapTaken 0 [7],
    HEvent.processed (.unregister 7)]⟩

def cexHub : HubState :=
  ⟨[], [], [(0, [7], [])], 1,
   [HEvent.processed (.register 7), HEvent.snapTaken 0 [7],
    HEvent.processed (.unregister 7), HEvent.wroteTo 0 7]⟩

theorem cexHub_reach : HubReach cexHub := by
  have t1 : HubStep hub0 hubS1 := HubStep.submit hub0 (.register 7)
  have t2 : HubStep hubS1 hubS2 := HubStep.process hubS1 (.register 7) [] rfl
  have t3 : HubStep hubS2 hubS3 := HubStep.startB hubS2
  have t4 : HubStep hubS3 hubS4 := HubStep.submit hubS3 (.unregister 7)
  have t5 : HubStep hubS4 hubS5 := HubStep.process hubS4 (.unregister 7) [] rfl
  have t6 : HubStep hubS5 cexHub := HubStep.writeB hubS5 [] [] 0 [7] [] 7 rfl
  exact Relation.ReflTransGen.tail (Relation.ReflTransGen.tail (Relation.ReflTransGen.tail
    (Relation.ReflTransGen.tail (Relation.ReflTransGen.tail
      (Relation.ReflTransGen.single t1) t2) t3) t4) t5) t6

/-- Claim C6, counterexample: a broadcast snapshots the registry while
handle 7 is registered; the Unregister for 7 is then processed; the
in-flight broadcast still writes to 7 afterwards.  The reachable trace
has the Unregister processed at index 2, a write to 7 at index 3, and
no re-Register in between — a write to a handle after its Unregister
was processed. -/
theorem hub_write_after_unregister_cex :
    HubReach cexHub
    ∧ cexHub.trace[2]? = some (HEvent.processed (CAction.unregister 7))
    ∧ cexHub.trace[3]? = some (HEvent.wroteTo 0 7)
    ∧ (∀ k, 2 < k → k < 3 →
        cexHub.trace[k]? ≠ some (HEvent.processed (CAction.register 7))) := by
  refine ⟨cexHub_reach, rfl, rfl, ?_⟩
  intro k h2 h3
  omega

/-- Claim C6 (amended): every snapshot a broadcast takes equals the
registry determined by the commands processed before it; every write
goes to a member of the writing broadcast's snapshot; and a snapshot
taken after an Unregister for handle c was processed (with no Register
for c in between) never contains c.  Hence after an Unregister is
processed no broadcast STARTED later writes to that handle until a new
Register is processed — but a broadcast already in flight, whose
snapshot predates the Unregister, may still write to it (see the
counterexample). -/
theorem hub_write_snapshot_amended (s : HubState) (h : HubReach s) :
    (∀ i b snap, s.trace[i]? = some (HEvent.snapTaken b snap) →
        snap = replayClients (s.trace.take i))
    ∧ (∀ b c, HEvent.wroteTo b c ∈ s.trace →
        ∃ snap, HEvent.snapTaken b snap ∈ s.trace ∧ c ∈ snap)
    ∧ (∀ (i j b c : Nat) (snap : List Nat),
        s.trace[i]? = some (HEvent.processed (CAction.unregister c)) →
        s.trace[j]? = some (HEvent.snapTaken b snap) →
        i < j →
        (∀ k : Nat, i < k → k < j →
          s.trace[k]? ≠ some (HEvent.processed (CAction.register c))) →
        c ∉ snap) := by
  obtain ⟨h1, h2, h3, h4⟩ := hubInv_reach s h
  refine ⟨h2, h4, ?_⟩
  intro i j b c snap hui hsj hij hno
  have hij1 : i + 1 ≤ j := Nat.succ_le_of_lt hij
  have hdecomp : s.trace.take j
      = s.trace.take (i + 1) ++ (s.trace.take j).drop (i + 1) := by
    conv_lhs => rw [← List.take_append_drop (i + 1) (s.trace.take j)]
    rw [List.take_take, Nat.min_eq_left hij1]
  have hbase : c ∉ replayClients (s.trace.take (i + 1)) := by
    have htake : s.trace.take (i + 1)
        = s.trace.take i ++ [HEvent.processed (.unregister c)] := by
      rw [List.take_succ, hui]
      rfl
    rw [htake, replayClients_append]
    simp [hubReplayStep, applyAction, List.mem_filter]
  have hmid : ∀ e ∈ (s.trace.take j).drop (i + 1),
      e ≠ HEvent.processed (.register c) := by
    intro e he heq
    rcases List.mem_iff_getElem?.mp he with ⟨n, hn⟩
    rw [List.getElem?_drop] at hn
    have hlen : i + 1 + n < (s.trace.take j).length := by
      obtain ⟨hl, -⟩ := List.getElem?_eq_some.mp hn
      exact hl
    have hltj : i + 1 + n < j := lt_of_lt_of_le hlen (List.length_take_le _ _)
    rw [List.getElem?_take_of_lt hltj] at hn
    rw [heq] at hn
    exact hno (i + 1 + n) (by omega) hltj hn
  have hfin : c ∉ replayClients (s.trace.take j) := by
    have hrw : replayClients (s.trace.take j)
        = ((s.trace.take j).drop (i + 1)).foldl hubReplayStep
            (replayClients (s.trace.take (i + 1))) := by
      rw [← replayClients_append, ← hdecomp]
    rw [hrw]
    exact notMem_replay_aux c _ _ hbase hmid
  rw [h2 j b snap hsj]
  exact hfin

/-- Witness for the amended C6, instantiated on the counterexample
run: the broadcast's snapshot [7] equals the registry replayed up to
the snapshot point, and its write to 7 targeted a snapshot member. -/
theorem hub_write_snapshot_amended_witness :
    [7] = replayClients (cexHub.trace.take 1)
    ∧ ∃ snap, HEvent.snapTaken 0 snap ∈ cexHub.trace ∧ 7 ∈ snap :=
  ⟨(hub_write_snapshot_amended cexHub cexHub_reach).1 1 0 [7] rfl,
   (hub_write_snapshot_amended cexHub cexHub_reach).2.1 0 7 (by decide)⟩

/-! ## Rotation and tail-session replacement (C4)

watchLogFile with its inodeChecker (src/main.go:273-376), modelled as
a transition system over the watched path: the path holds a current
file (identity and lines); a rotation replaces it with a fresh
identity and freezes the old content (the old session's handle still
reads it); the single tail session records the identity it opened and
how many lines it has read from position 0; the checker polls and, on
an identity change, sends the rotated signal once and stops; the
session's select prefers a pending signal over reading; processing the
signal spawns a replacement session (`go watchLogFile`, main.go:311)
and returns — the old session performs no further reads first, so the
handover is modelled atomically.  The replacement either establishes
itself on the current file (restart) or hits the open/inode-error
exits of src/main.go:286-298 and returns without a session or checker
(restartFail) — the zero-session outcome C8's correction identifies.
Delivered lines are recorded as (file identity, line index)
occurrences. -/

structure TailSession where
  ident : Nat
  pos : Nat
deriving DecidableEq, Repr

structure WatchState where
  curIdent : Nat
  curLines : List String
  oldFiles : List (Nat × List String)
  usedIdents : List Nat
  sessions : List TailSession
  checkerIdent : Nat
  checkerAlive : Bool
  signal : Bool
  delivered : List (Nat × Nat)
deriving DecidableEq, Repr

/-- The lines the session's open handle sees for a file identity: the
current file, or the frozen content of a rotated-away file. -/
def contentOf (s : WatchState) (ident : Nat) : List String :=
  if ident = s.curIdent then s.curLines
  else
    match s.oldFiles.lookup ident with
    | some ls => ls
    | none => []

inductive WatchStep : WatchState → WatchState → Prop
  | append (s : WatchState) (l : String) :
      WatchStep s ⟨s.curIdent, s.curLines ++ [l], s.oldFiles, s.usedIdents, s.sessions,
        s.checkerIdent, s.checkerAlive, s.signal, s.delivered⟩
  | rotate (s : WatchState) (newId : Nat) (hfresh : newId ∉ s.usedIdents) :
      WatchStep s ⟨newId, [], (s.curIdent, s.curLines) :: s.oldFiles,
        newId :: s.usedIdents, s.sessions, s.checkerIdent, s.checkerAlive, s.signal,
        s.delivered⟩
  | readLine (s : WatchState) (sess : TailSession)
      (hmem : s.sessions = [sess]) (hsig : s.signal = false)
      (hpos : sess.pos < (contentOf s sess.ident).length) :
      WatchStep s ⟨s.curIdent, s.curLines, s.oldFiles, s.usedIdents,
        [⟨sess.ident, sess.pos + 1⟩], s.checkerIdent, s.checkerAlive, s.signal,
        s.delivered ++ [(sess.ident, sess.pos)]⟩
  | pollDetect (s : WatchState) (halive : s.checkerAlive = true)
      (hne : s.checkerIdent ≠ s.curIdent) :
      WatchStep s ⟨s.curIdent, s.curLines, s.oldFiles, s.usedIdents, s.sessions,
        s.checkerIdent, false, true, s.delivered⟩
  | restart (s : WatchState) (sess : TailSession)
      (hsig : s.signal = true) (hmem : s.sessions = [sess]) :
      WatchStep s ⟨s.curIdent, s.curLines, s.oldFiles, s.usedIdents,
        [⟨s.curIdent, 0⟩], s.curIdent, true, false, s.delivered⟩
  | restartFail (s : WatchState) (sess : TailSession)
      (hsig : s.signal = true) (hmem : s.sessions = [sess]) :
      WatchStep s ⟨s.curIdent, s.curLines, s.oldFiles, s.usedIdents,
        [], s.checkerIdent, false, false, s.delivered⟩

def watch0 : WatchState := ⟨0, [], [], [0], [⟨0, 0⟩], 0, true, false, []⟩

def WatchReach (s : WatchState) : Prop := Relation.ReflTransGen WatchStep watch0 s

/-- The watch invariant: the current identity was recorded, deliveries
never repeat, and the path carries either no session (a dead tailer
after a failed replacement) or exactly one, whose identity the live
checker tracks and whose position bounds its past deliveries. -/
def WatchInv (s : WatchState) : Prop :=
  s.curIdent ∈ s.usedIdents
  ∧ s.delivered.Nodup
  ∧ (s.sessions = []
     ∨ ∃ sess, s.sessions = [sess]
        ∧ (s.checkerAlive = true → s.checkerIdent = sess.ident)
        ∧ (s.signal = true → sess.ident ≠ s.curIdent)
        ∧ sess.ident ∈ s.usedIdents
        ∧ (∀ p ∈ s.delivered, (p.1 = sess.ident ∧ p.2 < sess.pos)
            ∨ (p.1 ≠ sess.ident ∧ p.1 ≠ s.curIdent ∧ p.1 ∈ s.usedIdents)))

theorem watchInv_init : WatchInv watch0 := by
  refine ⟨by decide, by decide,
    Or.inr ⟨⟨0, 0⟩, rfl, fun _ => rfl, fun hsig => ?_, by decide, fun p hp => ?_⟩⟩
  · exact absurd hsig (by decide)
  · simp [watch0] at hp

theorem watchInv_step (s s' : WatchState) (hs : WatchStep s s') (hi : WatchInv s) :
    WatchInv s' := by
  obtain ⟨hcur, hnd, hses⟩ := hi
  cases hs with
  | append l =>
    exact ⟨hcur, hnd, hses⟩
  | rotate newId hfresh =>
    refine ⟨List.mem_cons_self _ _, hnd, ?_⟩
    rcases hses with hdead | ⟨sess, hsess, hchk, hsigI, hsid, hdel⟩
    · exact Or.inl hdead
    · refine Or.inr ⟨sess, hsess, hchk, ?_, List.mem_cons_of_mem _ hsid, ?_⟩
      · intro _ heq
        have heq2 : sess.ident = newId := heq
        exact hfresh (heq2 ▸ hsid)
      · intro p hp
        rcases hdel p hp with ⟨hpe, hlt⟩ | ⟨hne1, hne2, hmm⟩
        · exact Or.inl ⟨hpe, hlt⟩
        · refine Or.inr ⟨hne1, ?_, List.mem_cons_of_mem _ hmm⟩
          intro heq
          have heq2 : p.1 = newId := heq
          exact hfresh (heq2 ▸ hmm)
  | readLine sess2 hmem hsig hpos =>
    rcases hses with hdead | ⟨sess, hsess, hchk, hsigI, hsid, hdel⟩
    · rw [hdead] at hmem
      exact absurd hmem (by simp)
    · have hse : sess2 = sess := by
        have h12 := hsess.symm.trans hmem
        injection h12 with ha hb
        exact ha.symm
      subst hse
      refine ⟨hcur, ?_,
        Or.inr ⟨⟨sess2.ident, sess2.pos + 1⟩, rfl, hchk, hsigI, hsid, ?_⟩⟩
      · refine List.Nodup.append hnd (List.nodup_singleton _) ?_
        intro x hx hx2
        rw [List.mem_singleton] at hx2
        subst hx2
        rcases hdel _ hx with ⟨-, hlt⟩ | ⟨hne1, -, -⟩
        · exact absurd hlt (Nat.lt_irrefl _)
        · exact hne1 rfl
      · intro p hp
        rcases List.mem_append.mp hp with hp1 | hp1
        · rcases hdel p hp1 with ⟨hpe, hlt⟩ | ⟨hne1, hne2, hmm⟩
          · exact Or.inl ⟨hpe, Nat.lt_succ_of_lt hlt⟩
          · exact Or.inr ⟨hne1, hne2, hmm⟩
        · rw [List.mem_singleton] at hp1
          subst hp1
          exact Or.inl ⟨rfl, Nat.lt_succ_self _⟩
  | pollDetect halive hne =>
    refine ⟨hcur, hnd, ?_⟩
    rcases hses with hdead | ⟨sess, hsess, hchk, hsigI, hsid, hdel⟩
    · exact Or.inl hdead
    · refine Or.inr ⟨sess, hsess, fun hf => Bool.noConfusion hf, fun _ => ?_,
        hsid, hdel⟩
      rw [← hchk halive]
      exact hne
  | restart sess2 hsig hmem =>
    rcases hses with hdead | ⟨sess, hsess, hchk, hsigI, hsid, hdel⟩
    · rw [hdead] at hmem
      exact absurd hmem (by simp)
    · refine ⟨hcur, hnd, Or.inr ⟨⟨s.curIdent, 0⟩, rfl, fun _ => rfl,
        fun hf => Bool.noConfusion hf, hcur, ?_⟩⟩
      intro p hp
      rcases hdel p hp with ⟨hpe, hlt⟩ | ⟨hne1, hne2, hmm⟩
      · refine Or.inr ⟨?_, ?_, ?_⟩
        · rw [hpe]
          exact hsigI hsig
        · rw [hpe]
          exact hsigI hsig
        · rw [hpe]
          exact hsid
      · exact Or.inr ⟨hne2, hne2, hmm⟩
  | restartFail sess2 hsig hmem =>
    exact ⟨hcur, hnd, Or.inl rfl⟩

theorem watchInv_reach (s : WatchState) (h : WatchReach s) : WatchInv s := by
  induction h with
  | refl => exact watchInv_init
  | tail hr hstep ih => exact watchInv_step _ _ hstep ih

/-- Claim C4 (amended): in every reachable state at most one tail
session is active on the watched path — never two concurrently: the
state holds either exactly one session or, after a replacement session
failed to open the rotated file or read its inode, none at all (the
zero-session outcome is reachable, see this claim's witness, and
matches C8's correction); a pending rotation signal always refers to a
session whose open file identity differs from the current file, and
processing it installs at most one fresh session reading the current
file from the start; and no line occurrence — a (file identity, line
index) pair — is ever delivered twice (no duplication).  Lines the
terminating session had not yet read when the signal was processed,
however, are lost (see the counterexample). -/
theorem watch_single_session_nodup (s : WatchState) (h : WatchReach s) :
    (s.sessions = []
      ∨ ∃ sess, s.sessions = [sess] ∧ (s.signal = true → sess.ident ≠ s.curIdent))
    ∧ s.delivered.Nodup := by
  obtain ⟨hcur, hnd, hses⟩ := watchInv_reach s h
  refine ⟨?_, hnd⟩
  rcases hses with hdead | ⟨sess, hsess, hchk, hsigI, hsid, hdel⟩
  · exact Or.inl hdead
  · exact Or.inr ⟨sess, hsess, hsigI⟩

/-- The counterexample run: one line is appended, the file is rotated
to identity 1, the checker detects it, and the signal is processed
while the line is still unread. -/
def watchW1 : WatchState := ⟨0, ["a"], [], [0], [⟨0, 0⟩], 0, true, false, []⟩

def watchW2 : WatchState := ⟨1, [], [(0, ["a"])], [1, 0], [⟨0, 0⟩], 0, true, false, []⟩

def watchW3 : WatchState := ⟨1, [], [(0, ["a"])], [1, 0], [⟨0, 0⟩], 0, false, true, []⟩

def lostW : WatchState := ⟨1, [], [(0, ["a"])], [1, 0], [⟨1, 0⟩], 1, true, false, []⟩

theorem lostW_reach : WatchReach lostW := by
  have t1 : WatchStep watch0 watchW1 := WatchStep.append watch0 "a"
  have t2 : WatchStep watchW1 watchW2 := WatchStep.rotate watchW1 1 (by decide)
  have t3 : WatchStep watchW2 watchW3 := WatchStep.pollDetect watchW2 rfl (by decide)
  have t4 : WatchStep watchW3 lostW := WatchStep.restart watchW3 ⟨0, 0⟩ rfl rfl
  exact Relation.ReflTransGen.tail (Relation.ReflTransGen.tail (Relation.ReflTransGen.tail
    (Relation.ReflTransGen.single t1) t2) t3) t4

/-- A reachable dead-tailer state: after the rotation signal, the
replacement session hits the open/inode-error exit and the path is
left with no session and no checker. -/
def deadW : WatchState := ⟨1, [], [(0, ["a"])], [1, 0], [], 0, false, false, []⟩

theorem deadW_reach : WatchReach deadW := by
  have t1 : WatchStep watch0 watchW1 := WatchStep.append watch0 "a"
  have t2 : WatchStep watchW1 watchW2 := WatchStep.rotate watchW1 1 (by decide)
  have t3 : WatchStep watchW2 watchW3 := WatchStep.pollDetect watchW2 rfl (by decide)
  have t4 : WatchStep watchW3 deadW := WatchStep.restartFail watchW3 ⟨0, 0⟩ rfl rfl
  exact Relation.ReflTransGen.tail (Relation.ReflTransGen.tail (Relation.ReflTransGen.tail
    (Relation.ReflTransGen.single t1) t2) t3) t4

/-- Witness for the amended C4, applied at the reachable zero-session
state `deadW`: the session count can indeed drop to zero (so "exactly
one" would be false), and the delivery log is duplicate-free. -/
theorem watch_single_session_nodup_witness :
    WatchReach deadW ∧ deadW.sessions = []
    ∧ ((deadW.sessions = []
        ∨ ∃ sess, deadW.sessions = [sess]
            ∧ (deadW.signal = true → sess.ident ≠ deadW.curIdent))
      ∧ deadW.delivered.Nodup) :=
  ⟨deadW_reach, rfl, watch_single_session_nodup deadW deadW_reach⟩

/-- A line occurrence that can never be delivered from this state on. -/
def NeverDelivered (s : WatchState) (oc : Nat × Nat) : Prop :=
  ∀ s', Relation.ReflTransGen WatchStep s s' → oc ∉ s'.delivered

def LostP (s : WatchState) : Prop :=
  (0, 0) ∉ s.delivered
  ∧ (∀ sess ∈ s.sessions, sess.ident ≠ 0)
  ∧ s.curIdent ≠ 0
  ∧ 0 ∈ s.usedIdents

theorem lostP_step (s s' : WatchState) (hs : WatchStep s s') (hp : LostP s) : LostP s' := by
  obtain ⟨h1, h2, h3, h4⟩ := hp
  cases hs with
  | append l => exact ⟨h1, h2, h3, h4⟩
  | rotate newId hfresh =>
    refine ⟨h1, h2, ?_, List.mem_cons_of_mem _ h4⟩
    intro heq
    have heq2 : newId = 0 := heq
    exact hfresh (heq2.symm ▸ h4)
  | readLine sess hmem hsig hpos =>
    refine ⟨?_, ?_, h3, h4⟩
    · intro hin
      rcases List.mem_append.mp hin with hin1 | hin1
      · exact h1 hin1
      · rw [List.mem_singleton] at hin1
        have hseq : (0 : Nat) = sess.ident := congrArg Prod.fst hin1
        have hsm : sess ∈ s.sessions := by
          rw [hmem]
          exact List.mem_singleton_self _
        exact h2 sess hsm hseq.symm
    · intro x hx
      rw [List.mem_singleton] at hx
      subst hx
      have hsm : sess ∈ s.sessions := by
        rw [hmem]
        exact List.mem_singleton_self _
      exact h2 sess hsm
  | pollDetect halive hne => exact ⟨h1, h2, h3, h4⟩
  | restart sess hsig hmem =>
    refine ⟨h1, ?_, h3, h4⟩
    intro x hx
    rw [List.mem_singleton] at hx
    subst hx
    exact h3
  | restartFail sess hsig hmem =>
    exact ⟨h1, fun x hx => absurd hx (List.not_mem_nil x), h3, h4⟩

theorem lostP_lostW : LostP lostW := by
  refine ⟨by decide, ?_, by decide, by decide⟩
  intro x hx
  simp only [lostW] at hx
  rw [List.mem_singleton] at hx
  subst hx
  decide

theorem lostP_reach (s' : WatchState)
    (h : Relation.ReflTransGen WatchStep lostW s') : LostP s' := by
  induction h with
  | refl => exact lostP_lostW
  | tail hr hstep ih => exact lostP_step _ _ hstep ih

theorem lostW_never : NeverDelivered lostW (0, 0) :=
  fun s' h => (lostP_reach s' h).1

/-- Claim C4, counterexample: the writer appends one line to the file
(identity 0), the file is replaced by a fresh identity, the poll task
detects this, and the rotated signal is processed while the line is
still unread.  The run reaches a state where the old file's line
occurrence (identity 0, index 0) has not been delivered and can never
be delivered by any continuation — a line is lost across the rotation
boundary. -/
theorem watch_lost_line_cex :
    WatchReach lostW
    ∧ lostW.oldFiles.lookup 0 = some ["a"]
    ∧ (0, 0) ∉ lostW.delivered
    ∧ NeverDelivered lostW (0, 0) :=
  ⟨lostW_reach, by decide, by decide, lostW_never⟩

end NginxViz
